import Mathlib

/-!
# AttentionBank (opencog/atomspace/AttentionBank.h)

A shallow embedding of the attention bank: the two fund pools kept in
`std::atomic_long` counters, the getters derived from them, and the parts of
the bank whose bodies live outside the header (shutdown, the value-changed
handler, stimulation, normalisation), which are modelled from the written
specification and marked as such.

Machine integers.  The C++ type `long` is embedded as `Long`: the integers of
the interval `[-2^63, 2^63)`, with addition, negation and subtraction reduced
modulo `2^64` back into that interval.  This is the arithmetic that
`std::atomic<long>::operator+=` is specified to perform (two's complement, no
undefined results); the plain `long` subtraction of `getTotalSTI` is embedded
with the same arithmetic.  Whenever the exact result is representable the
operations agree with those of `ℤ` (`Long.val_add_of_fits` and friends).

Concurrency.  Every operation of the header is a single atomic
read-modify-write or a read; the embedding is the sequential semantics of
those operations applied one after another.
-/

namespace opencog

/-! ## The machine type `long` -/

/-- Reduction of an integer into the range of a 64-bit two's-complement `long`. -/
def wrapLong (x : Int) : Int :=
  (x + 9223372036854775808) % 18446744073709551616 - 9223372036854775808

/-- The predicate "representable as a `long`". -/
def FitsLong (x : Int) : Prop :=
  -9223372036854775808 ≤ x ∧ x < 9223372036854775808

instance (x : Int) : Decidable (FitsLong x) :=
  inferInstanceAs (Decidable (-9223372036854775808 ≤ x ∧ x < 9223372036854775808))

/-- A value of the C++ type `long`. -/
def Long : Type := { x : Int // FitsLong x }

namespace Long

/-- Conversion of an integer to `long` (value-preserving when it fits). -/
def ofInt (x : Int) : Long :=
  ⟨wrapLong x, by unfold FitsLong wrapLong; omega⟩

instance : DecidableEq Long := inferInstanceAs (DecidableEq { x : Int // FitsLong x })

instance : Zero Long := ⟨ofInt 0⟩

instance : Add Long := ⟨fun a b => ofInt (a.val + b.val)⟩

instance : Neg Long := ⟨fun a => ofInt (-a.val)⟩

instance : Sub Long := ⟨fun a b => ofInt (a.val - b.val)⟩

instance (priority := low) (n : Nat) : OfNat Long n := ⟨ofInt n⟩

instance : LT Long := ⟨fun a b => a.val < b.val⟩

instance : LE Long := ⟨fun a b => a.val ≤ b.val⟩

instance (a b : Long) : Decidable (a < b) := inferInstanceAs (Decidable (a.val < b.val))

instance (a b : Long) : Decidable (a ≤ b) := inferInstanceAs (Decidable (a.val ≤ b.val))

instance : Inhabited Long := ⟨0⟩

/-- The machine operations form a commutative group: arithmetic modulo `2^64`. -/
instance : AddCommGroup Long where
  add_assoc := fun a b c => Subtype.ext (by
    show wrapLong (wrapLong (a.val + b.val) + c.val) = wrapLong (a.val + wrapLong (b.val + c.val))
    unfold wrapLong; omega)
  zero_add := fun a => Subtype.ext (by
    have h := a.property
    show wrapLong (wrapLong 0 + a.val) = a.val
    unfold FitsLong at h; unfold wrapLong; omega)
  add_zero := fun a => Subtype.ext (by
    have h := a.property
    show wrapLong (a.val + wrapLong 0) = a.val
    unfold FitsLong at h; unfold wrapLong; omega)
  add_comm := fun a b => Subtype.ext (by
    show wrapLong (a.val + b.val) = wrapLong (b.val + a.val)
    rw [Int.add_comm])
  neg_add_cancel := fun a => Subtype.ext (by
    show wrapLong (wrapLong (-a.val) + a.val) = wrapLong 0
    unfold wrapLong; omega)
  sub_eq_add_neg := fun a b => Subtype.ext (by
    show wrapLong (a.val - b.val) = wrapLong (a.val + wrapLong (-b.val))
    unfold wrapLong; omega)
  nsmul := nsmulRec
  zsmul := zsmulRec

end Long

/-! ## Data model -/

/-- Modelled from the spec: `AttentionValue::sti_t`, declared in
opencog/truthvalue/AttentionValue.h, is a signed integer type.  Its values are
embedded through the value-preserving conversion to `long` that
`fundsSTI += diff` applies to them. -/
abbrev sti_t : Type := Long

/-- Modelled from the spec: `AttentionValue::lti_t`, a signed integer type,
embedded like `sti_t`. -/
abbrev lti_t : Type := Long

/-- Modelled from the spec: the importance value of an item, an immutable
triple of short-term importance, long-term importance and the very-long-term
retention counter (opencog/truthvalue/AttentionValue.h). -/
structure AttentionValue where
  sti : sti_t
  lti : lti_t
  vlti : Long
deriving DecidableEq

/-- Modelled from the spec: `opencog::recent_val` (opencog/util/recent_val.h),
the decaying extremum: the last value fed and the smoothed value. -/
structure recent_val where
  val : sti_t
  recent : sti_t
deriving DecidableEq

/-- The data members of `class AttentionBank`.  The two signals are registries
of subscribers and the two mutexes guard `_maxSTI` and `_minSTI`; what is
published on the signals is the output of the handler below.
`AVChangedConnection` records whether the connection to the table is live. -/
structure AttentionBank where
  _zombie : Bool
  AVChangedConnection : Bool
  attentionalFocusBoundary : sti_t
  _maxSTI : recent_val
  _minSTI : recent_val
  fundsSTI : Long
  fundsLTI : Long
  startingFundsSTI : Long
  startingFundsLTI : Long
  stiFundsBuffer : sti_t
  ltiFundsBuffer : lti_t
  targetSTI : sti_t
  targetLTI : lti_t
  STIAtomWage : sti_t
  LTIAtomWage : lti_t
deriving DecidableEq

namespace AttentionBank

/-! ## The fund pool (bodies given in the header) -/

/-- Source: `long getTotalSTI() const { return startingFundsSTI - fundsSTI; }` -/
def getTotalSTI (b : AttentionBank) : Long :=
  b.startingFundsSTI - b.fundsSTI

/-- Source: `long getTotalLTI() const { return startingFundsLTI - fundsLTI; }` -/
def getTotalLTI (b : AttentionBank) : Long :=
  b.startingFundsLTI - b.fundsLTI

/-- Source: `long getSTIFunds() const { return fundsSTI; }` -/
def getSTIFunds (b : AttentionBank) : Long :=
  b.fundsSTI

/-- Source: `long getLTIFunds() const { return fundsLTI; }` -/
def getLTIFunds (b : AttentionBank) : Long :=
  b.fundsLTI

/-- Source: `long updateSTIFunds(sti_t diff) { return fundsSTI += diff; }`:
the new state of the bank and the value returned. -/
def updateSTIFunds (b : AttentionBank) (diff : sti_t) : AttentionBank × Long :=
  let f := b.fundsSTI + diff
  ({ b with fundsSTI := f }, f)

/-- Source: `long updateLTIFunds(lti_t diff) { return fundsLTI += diff; }`:
the new state of the bank and the value returned. -/
def updateLTIFunds (b : AttentionBank) (diff : lti_t) : AttentionBank × Long :=
  let f := b.fundsLTI + diff
  ({ b with fundsLTI := f }, f)

/-- A call of one of the six fund-pool member functions. -/
inductive FundCall where
  | getTotalSTI
  | getTotalLTI
  | getSTIFunds
  | getLTIFunds
  | updateSTIFunds (diff : sti_t)
  | updateLTIFunds (diff : lti_t)
deriving DecidableEq

/-- One call on the bank: the state after it and the value it returns.  The
four getters are `const` member functions: the state they leave is the state
they were called on. -/
def call (b : AttentionBank) : FundCall → AttentionBank × Long
  | .getTotalSTI => (b, b.getTotalSTI)
  | .getTotalLTI => (b, b.getTotalLTI)
  | .getSTIFunds => (b, b.getSTIFunds)
  | .getLTIFunds => (b, b.getLTIFunds)
  | .updateSTIFunds diff => b.updateSTIFunds diff
  | .updateLTIFunds diff => b.updateLTIFunds diff

/-- The state reached by a finite sequence of calls, applied left to right. -/
def run (b : AttentionBank) (cs : List FundCall) : AttentionBank :=
  cs.foldl (fun s c => (s.call c).1) b

/-- The STI diffs of a sequence of calls, in order. -/
def stiDiffs : List FundCall → List sti_t
  | [] => []
  | .updateSTIFunds d :: cs => d :: stiDiffs cs
  | _ :: cs => stiDiffs cs

/-- The LTI diffs of a sequence of calls, in order. -/
def ltiDiffs : List FundCall → List lti_t
  | [] => []
  | .updateLTIFunds d :: cs => d :: ltiDiffs cs
  | _ :: cs => ltiDiffs cs

/-! ## The item table and matched transfers -/

end AttentionBank

/-- Modelled from the spec: the external item table (`class AtomTable`, only
forward-declared in the header), a map from item handles to the importance
value each item currently holds. -/
abbrev AtomTable (Handle : Type) : Type := Handle → AttentionValue

namespace AtomTable

/-- The table in which every item holds importance 0. -/
def empty (Handle : Type) : AtomTable Handle :=
  fun _ => { sti := 0, lti := 0, vlti := 0 }

/-- The table after `av` has been stored for item `h`. -/
def set {Handle : Type} [DecidableEq Handle] (t : AtomTable Handle) (h : Handle)
    (av : AttentionValue) : AtomTable Handle :=
  fun k => if k = h then av else t k

/-- Sum of STI over all items of the table. -/
def sumSTI {Handle : Type} [Fintype Handle] (t : AtomTable Handle) : Long :=
  ∑ h, (t h).sti

/-- Sum of LTI over all items of the table. -/
def sumLTI {Handle : Type} [Fintype Handle] (t : AtomTable Handle) : Long :=
  ∑ h, (t h).lti

end AtomTable

namespace AttentionBank

/-- A matched transfer: an amount `a` of one currency moves from the pool to
the item `h`. -/
inductive Transfer (Handle : Type) where
  | sti (h : Handle) (a : sti_t)
  | lti (h : Handle) (a : lti_t)

/-- One matched transfer: `a` is added to the item's value in the table and
`updateSTIFunds(-a)` (resp. `updateLTIFunds(-a)`) is called on the bank. -/
def transfer {Handle : Type} [DecidableEq Handle]
    (s : AttentionBank × AtomTable Handle) : Transfer Handle → AttentionBank × AtomTable Handle
  | .sti h a => ((s.1.updateSTIFunds (-a)).1, s.2.set h { s.2 h with sti := (s.2 h).sti + a })
  | .lti h a => ((s.1.updateLTIFunds (-a)).1, s.2.set h { s.2 h with lti := (s.2 h).lti + a })

/-- A finite sequence of matched transfers, applied left to right. -/
def transfers {Handle : Type} [DecidableEq Handle]
    (s : AttentionBank × AtomTable Handle) (ts : List (Transfer Handle)) :
    AttentionBank × AtomTable Handle :=
  ts.foldl transfer s

/-! ## Boundary crossings and the change handler (bodies outside the header) -/

/-- Modelled from the spec: the outcome of comparing an old and a new STI
against the boundary. -/
inductive Crossing where
  | EnteredFocus
  | LeftFocus
  | NoChange
deriving DecidableEq

/-- Modelled from the spec: the body of the crossing test is not in the
header.  `EnteredFocus` iff `oldSTI < boundary ≤ newSTI`; `LeftFocus` iff
`oldSTI ≥ boundary > newSTI`; otherwise `NoChange`. -/
def crossed (oldSTI newSTI boundary : sti_t) : Crossing :=
  if oldSTI < boundary ∧ boundary ≤ newSTI then Crossing.EnteredFocus
  else if boundary ≤ oldSTI ∧ newSTI < boundary then Crossing.LeftFocus
  else Crossing.NoChange

/-- The two signals of the bank, `_AddAFSignal` and `_RemoveAFSignal`. -/
inductive AFSignal where
  | AddAF
  | RemoveAF
deriving DecidableEq

/-- One publication on a signal of type `AFCHSigl`: the signal and the three
arguments `(const Handle&, const AttentionValuePtr&, const AttentionValuePtr&)`
handed to its subscribers. -/
structure Publication (Handle : Type) where
  signal : AFSignal
  h : Handle
  old_av : AttentionValue
  new_av : AttentionValue
deriving DecidableEq

/-- Modelled from the spec: the body of
`void AVChanged(Handle, AttentionValuePtr, AttentionValuePtr)` is not in the
header.  If the bank is inert the notification is ignored; otherwise the
crossing of the boundary by the STI is computed and an entered-focus event is
published on `_AddAFSignal`, a left-focus event on `_RemoveAFSignal`, and on
no change nothing.  The result is the list of publications made. -/
def AVChanged {Handle : Type} (b : AttentionBank) (h : Handle)
    (old_av new_av : AttentionValue) : List (Publication Handle) :=
  if b._zombie then []
  else
    match crossed old_av.sti new_av.sti b.attentionalFocusBoundary with
    | Crossing.EnteredFocus => [{ signal := AFSignal.AddAF, h := h, old_av := old_av, new_av := new_av }]
    | Crossing.LeftFocus => [{ signal := AFSignal.RemoveAF, h := h, old_av := old_av, new_av := new_av }]
    | Crossing.NoChange => []

/-- The publications made while one item takes the given STI values one after
another: the handler is notified of every change from a value to the next. -/
def observeSTIs {Handle : Type} (b : AttentionBank) (h : Handle) :
    List sti_t → List (Publication Handle)
  | [] => []
  | oldSTI :: rest =>
    match rest with
    | [] => []
    | newSTI :: _ =>
      b.AVChanged h { sti := oldSTI, lti := 0, vlti := 0 } { sti := newSTI, lti := 0, vlti := 0 }
        ++ observeSTIs b h rest

/-- Modelled from the spec: the body of `void shutdown(void)` is not in the
header.  It takes an active bank to the inert state and disconnects it from
the notifications of the table; on an inert bank it does nothing. -/
def shutdown (b : AttentionBank) : AttentionBank :=
  if b._zombie then b
  else { b with _zombie := true, AVChangedConnection := false }

/-- Modelled from the spec: the body of `getAttentionalFocusBoundary` is not
in the header; it reads the threshold. -/
def getAttentionalFocusBoundary (b : AttentionBank) : sti_t :=
  b.attentionalFocusBoundary

/-! ## Stimulation (bodies outside the header) -/

/-- Modelled from the spec: the constants of the wage law that the header
does not declare: the two bounds of the clamp, and the conversion of a real
amount to the integer currency. -/
structure WageLaw where
  lowBound : ℚ
  highBound : ℚ
  toImportance : ℚ → Long

/-- Value of a `long` as a rational number. -/
def toRat (x : Long) : ℚ := (x.val : ℚ)

/-- Clamp of `x` into `[lo, hi]`. -/
def clamp (x lo hi : ℚ) : ℚ := max lo (min x hi)

/-- Modelled from the spec: the body of `sti_t calculateSTIWage(void)` is not
in the header.  `wage = baseWage * clamp(available / targetFunds, lowBound,
highBound)`, the base wage being `STIAtomWage`. -/
def calculateSTIWage (w : WageLaw) (b : AttentionBank) : ℚ :=
  toRat b.STIAtomWage * clamp (toRat b.getSTIFunds / toRat b.targetSTI) w.lowBound w.highBound

/-- Modelled from the spec: the body of `lti_t calculateLTIWage(void)` is not
in the header; the same law on the LTI pool, the base wage being
`LTIAtomWage`. -/
def calculateLTIWage (w : WageLaw) (b : AttentionBank) : ℚ :=
  toRat b.LTIAtomWage * clamp (toRat b.getLTIFunds / toRat b.targetLTI) w.lowBound w.highBound

/-- The bank together with its two collaborators: the item table and the
subscribers of its signals, who see the publications in order. -/
structure World (Handle : Type) where
  bank : AttentionBank
  table : AtomTable Handle
  published : List (Publication Handle)

/-- Modelled from the spec: `requestCredit` on the table.  The table adds the
amounts to the value of the item and, as a consequence, notifies the bank of
the change if the connection is live. -/
def requestCredit {Handle : Type} [DecidableEq Handle] (s : World Handle) (h : Handle)
    (dSTI : sti_t) (dLTI : lti_t) : World Handle :=
  let old_av := s.table h
  let new_av := { old_av with sti := old_av.sti + dSTI, lti := old_av.lti + dLTI }
  { bank := s.bank
    table := s.table.set h new_av
    published :=
      if s.bank.AVChangedConnection then s.published ++ s.bank.AVChanged h old_av new_av
      else s.published }

/-- Modelled from the spec: the body of `void stimulate(Handle&, double)` is
not in the header.  On an inert bank the call is a no-op.  Otherwise a negative
stimulus is a precondition failure (`none`); else the award `wage * stimulus`
of each currency is debited from its pool and the table is asked to credit the
item with it. -/
def stimulate {Handle : Type} [DecidableEq Handle] (w : WageLaw) (s : World Handle)
    (h : Handle) (stimulus : ℚ) : Option (World Handle) :=
  if s.bank._zombie then some s
  else if stimulus < 0 then none
  else
    let awardSTI := w.toImportance (calculateSTIWage w s.bank * stimulus)
    let awardLTI := w.toImportance (calculateLTIWage w s.bank * stimulus)
    let b1 := (s.bank.updateSTIFunds (-awardSTI)).1
    let b2 := (b1.updateLTIFunds (-awardLTI)).1
    some (requestCredit { s with bank := b2 } h awardSTI awardLTI)

/-- A call that reaches the bank from outside: a stimulation, a change
notification from the table, or a shutdown. -/
inductive BankCall (Handle : Type) where
  | stimulate (h : Handle) (stimulus : ℚ)
  | AVChanged (h : Handle) (old_av new_av : AttentionValue)
  | shutdown

/-- The world after one call; a call that fails its precondition leaves the
world as it was. -/
def World.step {Handle : Type} [DecidableEq Handle] (w : WageLaw) (s : World Handle) :
    BankCall Handle → World Handle
  | .stimulate h stimulus => (AttentionBank.stimulate w s h stimulus).getD s
  | .AVChanged h old_av new_av =>
    { s with published := s.published ++ s.bank.AVChanged h old_av new_av }
  | .shutdown => { s with bank := s.bank.shutdown }

/-- The world after a finite sequence of calls, applied left to right. -/
def World.steps {Handle : Type} [DecidableEq Handle] (w : WageLaw) (s : World Handle)
    (cs : List (BankCall Handle)) : World Handle :=
  cs.foldl (World.step w) s

/-! ## Normalisation (bodies outside the header) -/

/-- Modelled from the spec: the body of `getMaxSTI(bool average)` is not in
the header; it reads the maximum tracker, smoothed if `average`, raw otherwise. -/
def getMaxSTI (b : AttentionBank) (average : Bool) : sti_t :=
  if average then b._maxSTI.recent else b._maxSTI.val

/-- Modelled from the spec: the body of `getMinSTI(bool average)` is not in
the header; it reads the minimum tracker, smoothed if `average`, raw otherwise. -/
def getMinSTI (b : AttentionBank) (average : Bool) : sti_t :=
  if average then b._minSTI.recent else b._minSTI.val

/-- Modelled from the spec: the body of
`double getNormalisedSTI(AttentionValuePtr, bool average, bool clip)` is not in
the header.  Two linear scales: STI below the boundary goes from `[min,
boundary)` to `[-1, 0)`, STI at or above it from `[boundary, max]` to `[0, 1]`.
A side of zero width gives 0 at the boundary and saturates to `±1` elsewhere.
With `clip` the result is clamped into `[-1, 1]`.  Doubles are embedded as
rationals. -/
def getNormalisedSTI (b : AttentionBank) (av : AttentionValue) (average clip : Bool) : ℚ :=
  let s := av.sti
  let boundary := b.getAttentionalFocusBoundary
  let val : ℚ :=
    if boundary ≤ s then
      let mx := b.getMaxSTI average
      if mx = boundary then (if s = boundary then 0 else 1)
      else (toRat s - toRat boundary) / (toRat mx - toRat boundary)
    else
      let mn := b.getMinSTI average
      if boundary = mn then -1
      else (toRat s - toRat boundary) / (toRat boundary - toRat mn)
  if clip then clamp val (-1) 1 else val

/-- Modelled from the spec: the body of
`double getNormalisedZeroToOneSTI(AttentionValuePtr, bool average, bool clip)`
is not in the header.  The two-segment mapping of `getNormalisedSTI` rescaled
from `[-1, 1]` to `[0, 1]`. -/
def getNormalisedZeroToOneSTI (b : AttentionBank) (av : AttentionValue)
    (average clip : Bool) : ℚ :=
  (b.getNormalisedSTI av average clip + 1) / 2

/-! ## Sample data -/

/-- A sample bank: active, connected to the table, boundary 10, both pools
holding their starting funds of 1000. -/
def sampleBank : AttentionBank :=
  { _zombie := false
    AVChangedConnection := true
    attentionalFocusBoundary := 10
    _maxSTI := { val := 40, recent := 30 }
    _minSTI := { val := -20, recent := -15 }
    fundsSTI := 1000
    fundsLTI := 1000
    startingFundsSTI := 1000
    startingFundsLTI := 1000
    stiFundsBuffer := 50
    ltiFundsBuffer := 50
    targetSTI := 1000
    targetLTI := 1000
    STIAtomWage := 10
    LTIAtomWage := 10 }

end AttentionBank

/-! ## Arithmetic of `long` -/

namespace Long

theorem val_add (a b : Long) : (a + b).val = wrapLong (a.val + b.val) := rfl

theorem val_sub (a b : Long) : (a - b).val = wrapLong (a.val - b.val) := rfl

theorem val_neg (a : Long) : (-a).val = wrapLong (-a.val) := rfl

theorem val_zero : (0 : Long).val = 0 := rfl

theorem lt_iff_val (a b : Long) : a < b ↔ a.val < b.val := Iff.rfl

theorem le_iff_val (a b : Long) : a ≤ b ↔ a.val ≤ b.val := Iff.rfl

theorem wrapLong_of_fits {x : Int} (h : FitsLong x) : wrapLong x = x := by
  unfold FitsLong at h
  unfold wrapLong
  omega

/-- Machine addition is integer addition whenever the exact sum is representable. -/
theorem val_add_of_fits (a b : Long) (h : FitsLong (a.val + b.val)) :
    (a + b).val = a.val + b.val := by
  rw [val_add, wrapLong_of_fits h]

/-- Machine subtraction is integer subtraction whenever the exact difference is
representable. -/
theorem val_sub_of_fits (a b : Long) (h : FitsLong (a.val - b.val)) :
    (a - b).val = a.val - b.val := by
  rw [val_sub, wrapLong_of_fits h]

/-- Machine negation is integer negation whenever the exact result is representable. -/
theorem val_neg_of_fits (a : Long) (h : FitsLong (-a.val)) : (-a).val = -a.val := by
  rw [val_neg, wrapLong_of_fits h]

end Long

namespace AttentionBank

/-! ## The fund pool: auxiliary facts -/

theorem run_nil (b : AttentionBank) : b.run [] = b := rfl

theorem run_cons (b : AttentionBank) (c : FundCall) (cs : List FundCall) :
    b.run (c :: cs) = (b.call c).1.run cs := rfl

/-- A sequence of calls changes nothing but the two fund levels, each by the
sum of the diffs it was given. -/
theorem run_eq (b : AttentionBank) (cs : List FundCall) :
    b.run cs = { b with fundsSTI := b.fundsSTI + (stiDiffs cs).sum
                        fundsLTI := b.fundsLTI + (ltiDiffs cs).sum } := by
  induction cs generalizing b with
  | nil => simp [run_nil, stiDiffs, ltiDiffs]
  | cons c cs ih =>
    rw [run_cons, ih]
    cases c <;>
      simp [call, updateSTIFunds, updateLTIFunds, stiDiffs, ltiDiffs, add_assoc]

/-! ## The fund pool: properties -/

/-- C2. In every state reached from any initial state by any finite sequence of
fund-pool calls with arbitrary diffs, `getTotalSTI() + getSTIFunds()` equals
`startingFundsSTI` and `getTotalLTI() + getLTIFunds()` equals
`startingFundsLTI`, and the starting funds are those of the initial state. -/
theorem total_plus_funds_eq_starting (b : AttentionBank) (cs : List FundCall) :
    (b.run cs).getTotalSTI + (b.run cs).getSTIFunds = (b.run cs).startingFundsSTI
    ∧ (b.run cs).getTotalLTI + (b.run cs).getLTIFunds = (b.run cs).startingFundsLTI
    ∧ (b.run cs).startingFundsSTI = b.startingFundsSTI
    ∧ (b.run cs).startingFundsLTI = b.startingFundsLTI := by
  refine ⟨?_, ?_, ?_, ?_⟩
  · simp only [getTotalSTI, getSTIFunds]; abel
  · simp only [getTotalLTI, getLTIFunds]; abel
  · rw [run_eq]
  · rw [run_eq]

/-- C3. For every fund level and every diff `d`, `updateSTIFunds(d)` sets the
STI funds to `f + d` and returns exactly what `getSTIFunds()` returns
afterwards; nothing is clamped: the new level is negative whenever `f + d` is,
and it is the exact integer sum whenever that sum is representable.  Likewise
`updateLTIFunds`. -/
theorem updateFunds_sets_sum (b : AttentionBank) (d : Long) :
    ((b.updateSTIFunds d).1.fundsSTI = b.fundsSTI + d
      ∧ (b.updateSTIFunds d).2 = (b.updateSTIFunds d).1.getSTIFunds
      ∧ (b.fundsSTI + d < 0 → (b.updateSTIFunds d).1.getSTIFunds < 0)
      ∧ (FitsLong (b.fundsSTI.val + d.val) →
          (b.updateSTIFunds d).1.getSTIFunds.val = b.fundsSTI.val + d.val))
    ∧ ((b.updateLTIFunds d).1.fundsLTI = b.fundsLTI + d
      ∧ (b.updateLTIFunds d).2 = (b.updateLTIFunds d).1.getLTIFunds
      ∧ (b.fundsLTI + d < 0 → (b.updateLTIFunds d).1.getLTIFunds < 0)
      ∧ (FitsLong (b.fundsLTI.val + d.val) →
          (b.updateLTIFunds d).1.getLTIFunds.val = b.fundsLTI.val + d.val)) := by
  refine ⟨⟨rfl, rfl, fun h => h, fun h => ?_⟩, ⟨rfl, rfl, fun h => h, fun h => ?_⟩⟩
  · exact Long.val_add_of_fits _ _ h
  · exact Long.val_add_of_fits _ _ h

/-- C3, at a concrete input: funds 1000 and diff -1003 give funds -3. -/
theorem updateFunds_sets_sum_witness :
    FitsLong (sampleBank.fundsSTI.val + (-1003 : Long).val)
    ∧ (sampleBank.updateSTIFunds (-1003)).1.getSTIFunds.val = -3
    ∧ (sampleBank.updateSTIFunds (-1003)).1.getSTIFunds < 0 := by
  have h : FitsLong (sampleBank.fundsSTI.val + (-1003 : Long).val) := by decide
  have e : sampleBank.fundsSTI.val + (-1003 : Long).val = -3 := by decide
  have t := updateFunds_sets_sum sampleBank (-1003)
  refine ⟨h, ?_, ?_⟩
  · rw [t.1.2.2.2 h, e]
  · exact t.1.2.2.1 (by decide)

/-- C4. In every bank state `getTotalSTI()` returns `startingFundsSTI -
fundsSTI`, `getTotalLTI()` returns `startingFundsLTI - fundsLTI`,
`getSTIFunds()` returns `fundsSTI` and `getLTIFunds()` returns `fundsLTI`, and
each of the four calls leaves the bank exactly as it was. -/
theorem getters_return_and_preserve (b : AttentionBank) :
    b.call FundCall.getTotalSTI = (b, b.startingFundsSTI - b.fundsSTI)
    ∧ b.call FundCall.getTotalLTI = (b, b.startingFundsLTI - b.fundsLTI)
    ∧ b.call FundCall.getSTIFunds = (b, b.fundsSTI)
    ∧ b.call FundCall.getLTIFunds = (b, b.fundsLTI) :=
  ⟨rfl, rfl, rfl, rfl⟩

/-- C5. Debit is credit with the negated amount: `updateSTIFunds(-a)` returns
`f - a`, and `updateSTIFunds(a)` followed by `updateSTIFunds(-a)` returns `f`
and restores the funds, `getTotalSTI()` and the whole bank; likewise for
`updateLTIFunds` and `getTotalLTI()`. -/
theorem debit_undoes_credit (b : AttentionBank) (a : Long) :
    ((b.updateSTIFunds (-a)).2 = b.fundsSTI - a
      ∧ ((b.updateSTIFunds a).1.updateSTIFunds (-a)).2 = b.fundsSTI
      ∧ ((b.updateSTIFunds a).1.updateSTIFunds (-a)).1.getSTIFunds = b.getSTIFunds
      ∧ ((b.updateSTIFunds a).1.updateSTIFunds (-a)).1.getTotalSTI = b.getTotalSTI
      ∧ ((b.updateSTIFunds a).1.updateSTIFunds (-a)).1 = b)
    ∧ ((b.updateLTIFunds (-a)).2 = b.fundsLTI - a
      ∧ ((b.updateLTIFunds a).1.updateLTIFunds (-a)).2 = b.fundsLTI
      ∧ ((b.updateLTIFunds a).1.updateLTIFunds (-a)).1.getLTIFunds = b.getLTIFunds
      ∧ ((b.updateLTIFunds a).1.updateLTIFunds (-a)).1.getTotalLTI = b.getTotalLTI
      ∧ ((b.updateLTIFunds a).1.updateLTIFunds (-a)).1 = b) := by
  have hS : ((b.updateSTIFunds a).1.updateSTIFunds (-a)).1 = b := by
    simp [updateSTIFunds]
  have hL : ((b.updateLTIFunds a).1.updateLTIFunds (-a)).1 = b := by
    simp [updateLTIFunds]
  refine ⟨⟨?_, ?_, ?_, ?_, hS⟩, ⟨?_, ?_, ?_, ?_, hL⟩⟩
  · simp [updateSTIFunds, sub_eq_add_neg]
  · simp [updateSTIFunds]
  · rw [hS]
  · rw [hS]
  · simp [updateLTIFunds, sub_eq_add_neg]
  · simp [updateLTIFunds]
  · rw [hL]
  · rw [hL]

/-- C9. The two currencies are independent: `updateSTIFunds` changes `fundsSTI`
and no other member of the bank (so `getLTIFunds()` and `getTotalLTI()`
return what they returned before), and `updateLTIFunds` changes `fundsLTI` and
no other member. -/
theorem updateFunds_frame (b : AttentionBank) (d : Long) :
    ((b.updateSTIFunds d).1 = { b with fundsSTI := b.fundsSTI + d }
      ∧ (b.updateSTIFunds d).1.fundsLTI = b.fundsLTI
      ∧ (b.updateSTIFunds d).1.startingFundsSTI = b.startingFundsSTI
      ∧ (b.updateSTIFunds d).1.startingFundsLTI = b.startingFundsLTI
      ∧ (b.updateSTIFunds d).1.targetSTI = b.targetSTI
      ∧ (b.updateSTIFunds d).1.targetLTI = b.targetLTI
      ∧ (b.updateSTIFunds d).1.stiFundsBuffer = b.stiFundsBuffer
      ∧ (b.updateSTIFunds d).1.ltiFundsBuffer = b.ltiFundsBuffer
      ∧ (b.updateSTIFunds d).1.STIAtomWage = b.STIAtomWage
      ∧ (b.updateSTIFunds d).1.LTIAtomWage = b.LTIAtomWage
      ∧ (b.updateSTIFunds d).1.attentionalFocusBoundary = b.attentionalFocusBoundary
      ∧ (b.updateSTIFunds d).1.getLTIFunds = b.getLTIFunds
      ∧ (b.updateSTIFunds d).1.getTotalLTI = b.getTotalLTI)
    ∧ ((b.updateLTIFunds d).1 = { b with fundsLTI := b.fundsLTI + d }
      ∧ (b.updateLTIFunds d).1.fundsSTI = b.fundsSTI
      ∧ (b.updateLTIFunds d).1.startingFundsSTI = b.startingFundsSTI
      ∧ (b.updateLTIFunds d).1.startingFundsLTI = b.startingFundsLTI
      ∧ (b.updateLTIFunds d).1.targetSTI = b.targetSTI
      ∧ (b.updateLTIFunds d).1.targetLTI = b.targetLTI
      ∧ (b.updateLTIFunds d).1.stiFundsBuffer = b.stiFundsBuffer
      ∧ (b.updateLTIFunds d).1.ltiFundsBuffer = b.ltiFundsBuffer
      ∧ (b.updateLTIFunds d).1.STIAtomWage = b.STIAtomWage
      ∧ (b.updateLTIFunds d).1.LTIAtomWage = b.LTIAtomWage
      ∧ (b.updateLTIFunds d).1.attentionalFocusBoundary = b.attentionalFocusBoundary
      ∧ (b.updateLTIFunds d).1.getSTIFunds = b.getSTIFunds
      ∧ (b.updateLTIFunds d).1.getTotalSTI = b.getTotalSTI) :=
  ⟨⟨rfl, rfl, rfl, rfl, rfl, rfl, rfl, rfl, rfl, rfl, rfl, rfl, rfl⟩,
    ⟨rfl, rfl, rfl, rfl, rfl, rfl, rfl, rfl, rfl, rfl, rfl, rfl, rfl⟩⟩

/-- C10. After any finite sequence of calls the STI funds are the initial level
plus the sum of the STI diffs and the LTI funds the initial level plus the sum
of the LTI diffs.  Hence two sequences whose STI diffs are a permutation of
each other and whose LTI diffs are a permutation of each other (any
permutation of one list, any interleaving of the two currencies) end in the
same bank, with the same fund levels and the same `getTotalSTI()` and
`getTotalLTI()`. -/
theorem fund_updates_commute (b : AttentionBank) (cs cs' : List FundCall) :
    (b.run cs).getSTIFunds = b.fundsSTI + (stiDiffs cs).sum
    ∧ (b.run cs).getLTIFunds = b.fundsLTI + (ltiDiffs cs).sum
    ∧ ((stiDiffs cs).Perm (stiDiffs cs') → (ltiDiffs cs).Perm (ltiDiffs cs') →
        b.run cs = b.run cs'
        ∧ (b.run cs).getSTIFunds = (b.run cs').getSTIFunds
        ∧ (b.run cs).getLTIFunds = (b.run cs').getLTIFunds
        ∧ (b.run cs).getTotalSTI = (b.run cs').getTotalSTI
        ∧ (b.run cs).getTotalLTI = (b.run cs').getTotalLTI) := by
  refine ⟨by rw [run_eq]; rfl, by rw [run_eq]; rfl, fun hS hL => ?_⟩
  have h : b.run cs = b.run cs' := by
    rw [run_eq, run_eq, hS.sum_eq, hL.sum_eq]
  rw [h]
  exact ⟨rfl, rfl, rfl, rfl, rfl⟩

/-- C10, at a concrete input: three STI updates and two LTI updates, in two
different orders and interleavings, from the sample bank. -/
theorem fund_updates_commute_witness :
    sampleBank.run [FundCall.updateSTIFunds 7, FundCall.updateLTIFunds (-4),
        FundCall.updateSTIFunds (-30), FundCall.updateSTIFunds 2, FundCall.updateLTIFunds 9]
      = sampleBank.run [FundCall.updateLTIFunds 9, FundCall.updateLTIFunds (-4),
        FundCall.updateSTIFunds 2, FundCall.updateSTIFunds 7, FundCall.updateSTIFunds (-30)] :=
  (fund_updates_commute sampleBank
    [FundCall.updateSTIFunds 7, FundCall.updateLTIFunds (-4),
      FundCall.updateSTIFunds (-30), FundCall.updateSTIFunds 2, FundCall.updateLTIFunds 9]
    [FundCall.updateLTIFunds 9, FundCall.updateLTIFunds (-4),
      FundCall.updateSTIFunds 2, FundCall.updateSTIFunds 7, FundCall.updateSTIFunds (-30)]).2.2
    (by decide) (by decide) |>.1

end AttentionBank

/-! ## Conservation against the item table -/

namespace AtomTable

theorem sumSTI_empty (Handle : Type) [Fintype Handle] : (AtomTable.empty Handle).sumSTI = 0 := by
  simp [sumSTI, AtomTable.empty]

theorem sumLTI_empty (Handle : Type) [Fintype Handle] : (AtomTable.empty Handle).sumLTI = 0 := by
  simp [sumLTI, AtomTable.empty]

/-- Storing a value for one item moves the STI sum by the difference between
the new and the old STI of that item. -/
theorem sumSTI_set {Handle : Type} [Fintype Handle] [DecidableEq Handle]
    (t : AtomTable Handle) (h : Handle) (av : AttentionValue) :
    (t.set h av).sumSTI + (t h).sti = t.sumSTI + av.sti := by
  unfold sumSTI
  rw [← Finset.add_sum_erase Finset.univ (fun k => ((t.set h av) k).sti) (Finset.mem_univ h),
    ← Finset.add_sum_erase Finset.univ (fun k => (t k).sti) (Finset.mem_univ h)]
  have e : ∑ k in Finset.univ.erase h, ((t.set h av) k).sti
      = ∑ k in Finset.univ.erase h, (t k).sti := by
    apply Finset.sum_congr rfl
    intro k hk
    simp [AtomTable.set, Finset.ne_of_mem_erase hk]
  rw [e]
  simp only [AtomTable.set, if_true]
  abel

/-- Storing a value for one item moves the LTI sum by the difference between
the new and the old LTI of that item. -/
theorem sumLTI_set {Handle : Type} [Fintype Handle] [DecidableEq Handle]
    (t : AtomTable Handle) (h : Handle) (av : AttentionValue) :
    (t.set h av).sumLTI + (t h).lti = t.sumLTI + av.lti := by
  unfold sumLTI
  rw [← Finset.add_sum_erase Finset.univ (fun k => ((t.set h av) k).lti) (Finset.mem_univ h),
    ← Finset.add_sum_erase Finset.univ (fun k => (t k).lti) (Finset.mem_univ h)]
  have e : ∑ k in Finset.univ.erase h, ((t.set h av) k).lti
      = ∑ k in Finset.univ.erase h, (t k).lti := by
    apply Finset.sum_congr rfl
    intro k hk
    simp [AtomTable.set, Finset.ne_of_mem_erase hk]
  rw [e]
  simp only [AtomTable.set, if_true]
  abel

end AtomTable

namespace AttentionBank

/-- One matched transfer keeps, for each currency, the sum over the items plus
the funds, and it keeps the starting funds. -/
theorem transfer_keeps {Handle : Type} [Fintype Handle] [DecidableEq Handle]
    (s : AttentionBank × AtomTable Handle) (t : Transfer Handle) :
    (transfer s t).2.sumSTI + (transfer s t).1.fundsSTI = s.2.sumSTI + s.1.fundsSTI
    ∧ (transfer s t).2.sumLTI + (transfer s t).1.fundsLTI = s.2.sumLTI + s.1.fundsLTI
    ∧ (transfer s t).1.startingFundsSTI = s.1.startingFundsSTI
    ∧ (transfer s t).1.startingFundsLTI = s.1.startingFundsLTI := by
  cases t with
  | sti h a =>
    have e := AtomTable.sumSTI_set s.2 h { s.2 h with sti := (s.2 h).sti + a }
    have e' := AtomTable.sumLTI_set s.2 h { s.2 h with sti := (s.2 h).sti + a }
    simp only [add_left_inj] at e'
    refine ⟨?_, ?_, rfl, rfl⟩
    · simp only [transfer, updateSTIFunds]
      have e2 : (s.2.set h { s.2 h with sti := (s.2 h).sti + a }).sumSTI = s.2.sumSTI + a := by
        have := e
        simp only at this
        rw [← add_assoc] at this
        -- cancel the old value of the item
        have h3 : (s.2.set h { s.2 h with sti := (s.2 h).sti + a }).sumSTI + (s.2 h).sti
            = (s.2.sumSTI + a) + (s.2 h).sti := by rw [this]; abel
        exact add_right_cancel h3
      rw [e2]; abel
    · simp only [transfer, updateSTIFunds]
      rw [e']
  | lti h a =>
    have e := AtomTable.sumLTI_set s.2 h { s.2 h with lti := (s.2 h).lti + a }
    have e' := AtomTable.sumSTI_set s.2 h { s.2 h with lti := (s.2 h).lti + a }
    simp only [add_left_inj] at e'
    refine ⟨?_, ?_, rfl, rfl⟩
    · simp only [transfer, updateLTIFunds]
      rw [e']
    · simp only [transfer, updateLTIFunds]
      have e2 : (s.2.set h { s.2 h with lti := (s.2 h).lti + a }).sumLTI = s.2.sumLTI + a := by
        have := e
        simp only at this
        rw [← add_assoc] at this
        have h3 : (s.2.set h { s.2 h with lti := (s.2 h).lti + a }).sumLTI + (s.2 h).lti
            = (s.2.sumLTI + a) + (s.2 h).lti := by rw [this]; abel
        exact add_right_cancel h3
      rw [e2]; abel

/-- A finite sequence of matched transfers keeps the same quantities. -/
theorem transfers_keep {Handle : Type} [Fintype Handle] [DecidableEq Handle]
    (s : AttentionBank × AtomTable Handle) (ts : List (Transfer Handle)) :
    (transfers s ts).2.sumSTI + (transfers s ts).1.fundsSTI = s.2.sumSTI + s.1.fundsSTI
    ∧ (transfers s ts).2.sumLTI + (transfers s ts).1.fundsLTI = s.2.sumLTI + s.1.fundsLTI
    ∧ (transfers s ts).1.startingFundsSTI = s.1.startingFundsSTI
    ∧ (transfers s ts).1.startingFundsLTI = s.1.startingFundsLTI := by
  induction ts generalizing s with
  | nil => exact ⟨rfl, rfl, rfl, rfl⟩
  | cons t ts ih =>
    have h1 := ih (transfer s t)
    have h2 := transfer_keeps s t
    simp only [transfers, List.foldl_cons] at h1 ⊢
    exact ⟨h1.1.trans h2.1, h1.2.1.trans h2.2.1, h1.2.2.1.trans h2.2.2.1,
      h1.2.2.2.trans h2.2.2.2⟩

/-- C1. Conservation against the item population.  Start from a table in which
every item holds 0 and a bank whose STI funds equal `startingFundsSTI`; after
every finite sequence of matched transfers `getTotalSTI()` equals the sum of
STI over all items, that is, the sum over the items plus the funds equals
`startingFundsSTI`.  Likewise for LTI. -/
theorem conservation_against_items {Handle : Type} [Fintype Handle] [DecidableEq Handle]
    (b : AttentionBank) (ts : List (Transfer Handle)) :
    (b.fundsSTI = b.startingFundsSTI →
      (transfers (b, AtomTable.empty Handle) ts).1.getTotalSTI
          = (transfers (b, AtomTable.empty Handle) ts).2.sumSTI
        ∧ (transfers (b, AtomTable.empty Handle) ts).2.sumSTI
            + (transfers (b, AtomTable.empty Handle) ts).1.getSTIFunds
          = b.startingFundsSTI)
    ∧ (b.fundsLTI = b.startingFundsLTI →
      (transfers (b, AtomTable.empty Handle) ts).1.getTotalLTI
          = (transfers (b, AtomTable.empty Handle) ts).2.sumLTI
        ∧ (transfers (b, AtomTable.empty Handle) ts).2.sumLTI
            + (transfers (b, AtomTable.empty Handle) ts).1.getLTIFunds
          = b.startingFundsLTI) := by
  have k := transfers_keep (b, AtomTable.empty Handle) ts
  constructor
  · intro h0
    have e : (transfers (b, AtomTable.empty Handle) ts).2.sumSTI
        + (transfers (b, AtomTable.empty Handle) ts).1.fundsSTI = b.startingFundsSTI := by
      rw [k.1, AtomTable.sumSTI_empty, zero_add, h0]
    refine ⟨?_, e⟩
    rw [getTotalSTI, k.2.2.1, ← e]
    abel
  · intro h0
    have e : (transfers (b, AtomTable.empty Handle) ts).2.sumLTI
        + (transfers (b, AtomTable.empty Handle) ts).1.fundsLTI = b.startingFundsLTI := by
      rw [k.2.1, AtomTable.sumLTI_empty, zero_add, h0]
    refine ⟨?_, e⟩
    rw [getTotalLTI, k.2.2.2, ← e]
    abel

/-- C1, at a concrete input: three items, the sample bank, and four transfers. -/
theorem conservation_against_items_witness :
    (sampleBank.fundsSTI = sampleBank.startingFundsSTI
      ∧ sampleBank.fundsLTI = sampleBank.startingFundsLTI)
    ∧ (transfers (sampleBank, AtomTable.empty (Fin 3))
          [Transfer.sti 0 5, Transfer.sti 1 7, Transfer.lti 2 3, Transfer.sti 0 (-2)]).1.getTotalSTI
        = (transfers (sampleBank, AtomTable.empty (Fin 3))
          [Transfer.sti 0 5, Transfer.sti 1 7, Transfer.lti 2 3, Transfer.sti 0 (-2)]).2.sumSTI
    ∧ (transfers (sampleBank, AtomTable.empty (Fin 3))
          [Transfer.sti 0 5, Transfer.sti 1 7, Transfer.lti 2 3, Transfer.sti 0 (-2)]).1.getTotalLTI
        = (transfers (sampleBank, AtomTable.empty (Fin 3))
          [Transfer.sti 0 5, Transfer.sti 1 7, Transfer.lti 2 3, Transfer.sti 0 (-2)]).2.sumLTI :=
  ⟨⟨rfl, rfl⟩,
    ((conservation_against_items sampleBank
      [Transfer.sti 0 5, Transfer.sti 1 7, Transfer.lti 2 3, Transfer.sti 0 (-2)]).1 rfl).1,
    ((conservation_against_items sampleBank
      [Transfer.sti 0 5, Transfer.sti 1 7, Transfer.lti 2 3, Transfer.sti 0 (-2)]).2 rfl).1⟩

/-! ## Boundary crossings -/

theorem crossed_eq_entered (o n bd : sti_t) :
    crossed o n bd = Crossing.EnteredFocus ↔ o < bd ∧ bd ≤ n := by
  unfold crossed
  by_cases h1 : o < bd ∧ bd ≤ n
  · simp [h1]
  · by_cases h2 : bd ≤ o ∧ n < bd <;> simp [h1, h2]

theorem crossed_eq_left (o n bd : sti_t) :
    crossed o n bd = Crossing.LeftFocus ↔ bd ≤ o ∧ n < bd := by
  unfold crossed
  by_cases h1 : o < bd ∧ bd ≤ n
  · have h2 : ¬ (bd ≤ o ∧ n < bd) := by
      intro h
      have a := h1.1
      have c := h.1
      rw [Long.lt_iff_val] at a
      rw [Long.le_iff_val] at c
      omega
    simp [h1, h2]
  · by_cases h2 : bd ≤ o ∧ n < bd <;> simp [h1, h2]

theorem crossed_eq_noChange (o n bd : sti_t) :
    crossed o n bd = Crossing.NoChange ↔ ¬ (o < bd ∧ bd ≤ n) ∧ ¬ (bd ≤ o ∧ n < bd) := by
  unfold crossed
  by_cases h1 : o < bd ∧ bd ≤ n
  · simp [h1]
  · by_cases h2 : bd ≤ o ∧ n < bd <;> simp [h1, h2]

/-- What the handler publishes, by lifecycle state and crossing. -/
theorem AVChanged_eq {Handle : Type} (b : AttentionBank) (h : Handle)
    (old_av new_av : AttentionValue) :
    b.AVChanged h old_av new_av =
      if b._zombie then []
      else if old_av.sti < b.attentionalFocusBoundary ∧ b.attentionalFocusBoundary ≤ new_av.sti
        then [{ signal := AFSignal.AddAF, h := h, old_av := old_av, new_av := new_av }]
      else if b.attentionalFocusBoundary ≤ old_av.sti ∧ new_av.sti < b.attentionalFocusBoundary
        then [{ signal := AFSignal.RemoveAF, h := h, old_av := old_av, new_av := new_av }]
      else [] := by
  unfold AVChanged crossed
  by_cases hz : b._zombie = true
  · simp [hz]
  · by_cases h1 : old_av.sti < b.attentionalFocusBoundary ∧ b.attentionalFocusBoundary ≤ new_av.sti
    · simp [hz, h1]
    · by_cases h2 : b.attentionalFocusBoundary ≤ old_av.sti ∧ new_av.sti < b.attentionalFocusBoundary
      · simp only [hz, h1, h2]; simp
      · simp only [hz, h1, h2]; simp

/-- C6, as stated, fails on an inert bank: on the sample bank after shutdown
(boundary 10) a change of STI from 5 to 12 has `old < boundary ≤ new`, yet the
handler publishes nothing. -/
theorem AVChanged_inert_publishes_nothing :
    (5 : sti_t) < sampleBank.shutdown.attentionalFocusBoundary
    ∧ sampleBank.shutdown.attentionalFocusBoundary ≤ (12 : sti_t)
    ∧ sampleBank.shutdown.AVChanged (0 : Nat)
        { sti := 5, lti := 0, vlti := 0 } { sti := 12, lti := 0, vlti := 0 } = [] := by
  decide

/-- C6, amended.  The change handler publishes on the add-to-focus signal iff
the bank is active and `old < boundary ≤ new`, publishes on the
remove-from-focus signal iff the bank is active and `old ≥ boundary > new`,
and publishes nothing otherwise; the two cases exclude each other and neither
occurs when `old = new`.  On an active bank with boundary 10 the STI sequence
`[5, 12, 20, 8, 30]` yields exactly entered-focus at 12, left-focus at 8,
entered-focus at 30. -/
theorem AVChanged_classifies {Handle : Type} (b : AttentionBank) (h : Handle)
    (old_av new_av : AttentionValue) :
    (b.AVChanged h old_av new_av
        = [{ signal := AFSignal.AddAF, h := h, old_av := old_av, new_av := new_av }]
      ↔ b._zombie = false ∧ old_av.sti < b.attentionalFocusBoundary
          ∧ b.attentionalFocusBoundary ≤ new_av.sti)
    ∧ (b.AVChanged h old_av new_av
        = [{ signal := AFSignal.RemoveAF, h := h, old_av := old_av, new_av := new_av }]
      ↔ b._zombie = false ∧ b.attentionalFocusBoundary ≤ old_av.sti
          ∧ new_av.sti < b.attentionalFocusBoundary)
    ∧ (b.AVChanged h old_av new_av = []
      ↔ ¬ (b._zombie = false ∧ old_av.sti < b.attentionalFocusBoundary
            ∧ b.attentionalFocusBoundary ≤ new_av.sti)
        ∧ ¬ (b._zombie = false ∧ b.attentionalFocusBoundary ≤ old_av.sti
            ∧ new_av.sti < b.attentionalFocusBoundary))
    ∧ ¬ ((old_av.sti < b.attentionalFocusBoundary ∧ b.attentionalFocusBoundary ≤ new_av.sti)
        ∧ (b.attentionalFocusBoundary ≤ old_av.sti ∧ new_av.sti < b.attentionalFocusBoundary))
    ∧ (old_av.sti = new_av.sti → b.AVChanged h old_av new_av = [])
    ∧ (b._zombie = false → b.attentionalFocusBoundary = 10 →
        b.observeSTIs h [5, 12, 20, 8, 30]
          = [{ signal := AFSignal.AddAF, h := h,
               old_av := { sti := 5, lti := 0, vlti := 0 },
               new_av := { sti := 12, lti := 0, vlti := 0 } },
             { signal := AFSignal.RemoveAF, h := h,
               old_av := { sti := 20, lti := 0, vlti := 0 },
               new_av := { sti := 8, lti := 0, vlti := 0 } },
             { signal := AFSignal.AddAF, h := h,
               old_av := { sti := 8, lti := 0, vlti := 0 },
               new_av := { sti := 30, lti := 0, vlti := 0 } }]) := by
  have excl : ¬ ((old_av.sti < b.attentionalFocusBoundary
      ∧ b.attentionalFocusBoundary ≤ new_av.sti)
      ∧ (b.attentionalFocusBoundary ≤ old_av.sti
      ∧ new_av.sti < b.attentionalFocusBoundary)) := by
    intro hc
    have a := hc.1.1
    have c := hc.2.1
    rw [Long.lt_iff_val] at a
    rw [Long.le_iff_val] at c
    omega
  refine ⟨?_, ?_, ?_, excl, ?_, ?_⟩
  · rw [AVChanged_eq]
    by_cases hz : b._zombie = true
    · simp [hz]
    · by_cases h1 : old_av.sti < b.attentionalFocusBoundary
          ∧ b.attentionalFocusBoundary ≤ new_av.sti
      · simp [hz, h1]
      · by_cases h2 : b.attentionalFocusBoundary ≤ old_av.sti
            ∧ new_av.sti < b.attentionalFocusBoundary
        · simp only [hz, h1, h2]; simp
        · simp only [hz, h1, h2]; simp
  · rw [AVChanged_eq]
    by_cases hz : b._zombie = true
    · simp [hz]
    · by_cases h1 : old_av.sti < b.attentionalFocusBoundary
          ∧ b.attentionalFocusBoundary ≤ new_av.sti
      · have h2 : ¬ (b.attentionalFocusBoundary ≤ old_av.sti
            ∧ new_av.sti < b.attentionalFocusBoundary) := fun h2 => excl ⟨h1, h2⟩
        simp only [hz, h1, h2]; simp
      · by_cases h2 : b.attentionalFocusBoundary ≤ old_av.sti
            ∧ new_av.sti < b.attentionalFocusBoundary
        · simp only [hz, h1, h2]; simp
        · simp only [hz, h1, h2]; simp
  · rw [AVChanged_eq]
    by_cases hz : b._zombie = true
    · simp [hz]
    · by_cases h1 : old_av.sti < b.attentionalFocusBoundary
          ∧ b.attentionalFocusBoundary ≤ new_av.sti
      · simp only [hz, h1]; simp
      · by_cases h2 : b.attentionalFocusBoundary ≤ old_av.sti
            ∧ new_av.sti < b.attentionalFocusBoundary
        · simp only [hz, h1, h2]; simp
        · simp only [hz, h1, h2]; simp
  · intro he
    rw [AVChanged_eq, he]
    have n1 : ¬ (new_av.sti < b.attentionalFocusBoundary
        ∧ b.attentionalFocusBoundary ≤ new_av.sti) := by
      intro hc
      have a := hc.1
      have c := hc.2
      rw [Long.lt_iff_val] at a
      rw [Long.le_iff_val] at c
      omega
    have n2 : ¬ (b.attentionalFocusBoundary ≤ new_av.sti
        ∧ new_av.sti < b.attentionalFocusBoundary) := fun hc => n1 ⟨hc.2, hc.1⟩
    simp only [n1, n2, if_false, ite_self]
  · intro hz hb
    have c1 : (5 : sti_t) < 10 ∧ (10 : sti_t) ≤ 12 := by decide
    have c2 : ¬ ((12 : sti_t) < 10 ∧ (10 : sti_t) ≤ 20) := by decide
    have c2' : ¬ ((10 : sti_t) ≤ 12 ∧ (20 : sti_t) < 10) := by decide
    have c3 : ¬ ((20 : sti_t) < 10 ∧ (10 : sti_t) ≤ 8) := by decide
    have c3' : (10 : sti_t) ≤ 20 ∧ (8 : sti_t) < 10 := by decide
    have c4 : (8 : sti_t) < 10 ∧ (10 : sti_t) ≤ 30 := by decide
    simp only [observeSTIs, AVChanged_eq, hz, hb]
    rw [if_pos c1, if_neg c2, if_neg c2', if_neg c3, if_pos c3', if_pos c4]
    simp

/-- C6 amended, at a concrete input: the sample bank is active with boundary 10. -/
theorem AVChanged_classifies_witness :
    sampleBank.observeSTIs (7 : Nat) [5, 12, 20, 8, 30]
      = [{ signal := AFSignal.AddAF, h := 7,
           old_av := { sti := 5, lti := 0, vlti := 0 },
           new_av := { sti := 12, lti := 0, vlti := 0 } },
         { signal := AFSignal.RemoveAF, h := 7,
           old_av := { sti := 20, lti := 0, vlti := 0 },
           new_av := { sti := 8, lti := 0, vlti := 0 } },
         { signal := AFSignal.AddAF, h := 7,
           old_av := { sti := 8, lti := 0, vlti := 0 },
           new_av := { sti := 30, lti := 0, vlti := 0 } }] :=
  (AVChanged_classifies sampleBank (7 : Nat)
    { sti := 5, lti := 0, vlti := 0 } { sti := 12, lti := 0, vlti := 0 }).2.2.2.2.2 rfl rfl

/-! ## Normalisation at the boundary -/

theorem clamp_zero : clamp 0 (-1) 1 = 0 := by
  unfold clamp
  norm_num

/-- C7. For every attention value whose STI equals the current attentional
focus boundary, and every choice of the `average` and `clip` flags,
`getNormalisedSTI` returns 0 and `getNormalisedZeroToOneSTI` returns 0.5. -/
theorem normalised_at_boundary (b : AttentionBank) (av : AttentionValue)
    (average clip : Bool) (hav : av.sti = b.getAttentionalFocusBoundary) :
    b.getNormalisedSTI av average clip = 0
    ∧ b.getNormalisedZeroToOneSTI av average clip = 1 / 2 := by
  have hle : b.getAttentionalFocusBoundary ≤ av.sti := by
    rw [hav, Long.le_iff_val]
  have h0 : b.getNormalisedSTI av average clip = 0 := by
    unfold getNormalisedSTI
    simp only [if_pos hle]
    have hval : (if b.getMaxSTI average = b.getAttentionalFocusBoundary then
          (if av.sti = b.getAttentionalFocusBoundary then (0 : ℚ) else 1)
        else (toRat av.sti - toRat b.getAttentionalFocusBoundary)
          / (toRat (b.getMaxSTI average) - toRat b.getAttentionalFocusBoundary)) = 0 := by
      by_cases hm : b.getMaxSTI average = b.getAttentionalFocusBoundary
      · rw [if_pos hm, if_pos hav]
      · rw [if_neg hm, hav, sub_self, zero_div]
    rw [hval]
    cases clip
    · simp
    · simp [clamp_zero]
  refine ⟨h0, ?_⟩
  unfold getNormalisedZeroToOneSTI
  rw [h0]
  norm_num

/-- C7, at a concrete input: the sample bank has boundary 10. -/
theorem normalised_at_boundary_witness :
    sampleBank.getNormalisedSTI { sti := 10, lti := 3, vlti := 0 } true true = 0
    ∧ sampleBank.getNormalisedZeroToOneSTI { sti := 10, lti := 3, vlti := 0 } true true = 1 / 2 :=
  normalised_at_boundary sampleBank { sti := 10, lti := 3, vlti := 0 } true true rfl

/-! ## Shutdown -/

theorem shutdown_zombie (b : AttentionBank) : b.shutdown._zombie = true := by
  unfold shutdown
  by_cases h : b._zombie = true
  · simp [h]
  · simp [h]

theorem shutdown_of_zombie (b : AttentionBank) (hz : b._zombie = true) : b.shutdown = b := by
  simp [shutdown, hz]

/-- On an inert bank every call from outside leaves the world as it is. -/
theorem step_inert {Handle : Type} [DecidableEq Handle] (w : WageLaw) (s : World Handle)
    (hz : s.bank._zombie = true) (c : BankCall Handle) : World.step w s c = s := by
  cases c with
  | stimulate h stimulus => simp [World.step, stimulate, hz]
  | AVChanged h old_av new_av => simp [World.step, AVChanged, hz]
  | shutdown => simp [World.step, shutdown, hz]

theorem steps_inert {Handle : Type} [DecidableEq Handle] (w : WageLaw) (s : World Handle)
    (hz : s.bank._zombie = true) (cs : List (BankCall Handle)) : World.steps w s cs = s := by
  induction cs with
  | nil => rfl
  | cons c cs ih =>
    simp only [World.steps, List.foldl_cons] at ih ⊢
    rw [step_inert w s hz c]
    exact ih

/-- C8. Calling `shutdown()` twice gives the same state as calling it once, and
after shutdown every `stimulate` call and every `AVChanged` notification
(singly, or in any finite sequence, further shutdowns included) leaves the
world as it is and publishes nothing: the STI funds, the LTI funds and the
attentional focus boundary are those the bank had before the shutdown. -/
theorem shutdown_idempotent_and_final {Handle : Type} [DecidableEq Handle] (w : WageLaw)
    (s : World Handle) (h : Handle) (stimulus : ℚ) (old_av new_av : AttentionValue)
    (cs : List (BankCall Handle)) :
    s.bank.shutdown.shutdown = s.bank.shutdown
    ∧ stimulate w { s with bank := s.bank.shutdown } h stimulus
        = some { s with bank := s.bank.shutdown }
    ∧ s.bank.shutdown.AVChanged h old_av new_av = []
    ∧ World.steps w { s with bank := s.bank.shutdown } cs = { s with bank := s.bank.shutdown }
    ∧ (World.steps w { s with bank := s.bank.shutdown } cs).bank.getSTIFunds = s.bank.getSTIFunds
    ∧ (World.steps w { s with bank := s.bank.shutdown } cs).bank.getLTIFunds = s.bank.getLTIFunds
    ∧ (World.steps w { s with bank := s.bank.shutdown } cs).bank.getAttentionalFocusBoundary
        = s.bank.getAttentionalFocusBoundary := by
  have hz : s.bank.shutdown._zombie = true := shutdown_zombie s.bank
  have hsteps := steps_inert w { s with bank := s.bank.shutdown } hz cs
  have hfields : s.bank.shutdown.getSTIFunds = s.bank.getSTIFunds
      ∧ s.bank.shutdown.getLTIFunds = s.bank.getLTIFunds
      ∧ s.bank.shutdown.getAttentionalFocusBoundary = s.bank.getAttentionalFocusBoundary := by
    unfold shutdown
    by_cases h : s.bank._zombie = true
    · simp [h]
    · simp [h, getSTIFunds, getLTIFunds, getAttentionalFocusBoundary]
  refine ⟨?_, ?_, ?_, hsteps, ?_, ?_, ?_⟩
  · exact shutdown_of_zombie s.bank.shutdown hz
  · simp [stimulate, hz]
  · simp [AVChanged, hz]
  · rw [hsteps]; exact hfields.1
  · rw [hsteps]; exact hfields.2.1
  · rw [hsteps]; exact hfields.2.2

end AttentionBank

end opencog
